import Mathlib

/-!
Shallow embedding of the Markdown-to-HTML converter in `md2h.py`
(`convert_md_to_html` and `apply_inline_formatting`), together with
theorems settling the specification claims about it.

Lines are modelled as `List Char` (Python strings); the document is split
on newline characters exactly as `md_content.split('\n')` does.
-/

namespace Md2h

/-- A line of text, modelled as its list of characters. -/
abbrev Line := List Char

/-- The backtick character (code 96). -/
def btChar : Char := Char.ofNat 96

/-- Whitespace characters removed by Python `str.strip()` (ASCII subset;
exotic Unicode space characters are not modelled). -/
def isPyWs (c : Char) : Bool :=
  c == ' ' || c == '\t' || c == '\n' || c == '\r' || c == '\x0b' || c == '\x0c'

/-- Strip leading whitespace (left half of Python `str.strip()`). -/
def pyStripLeft (l : Line) : Line := l.dropWhile isPyWs

/-- Strip trailing whitespace (right half of Python `str.strip()`). -/
def pyStripRight (l : Line) : Line := (l.reverse.dropWhile isPyWs).reverse

/-- Python `str.strip()`. -/
def pyStrip (l : Line) : Line := pyStripRight (pyStripLeft l)

/-- The list kind carried by the scanner: Python `in_list` is `False`,
`True` (unordered) or the string `'ol'` (ordered). -/
inductive ListKind where
  | nolist
  | ul
  | ol
deriving DecidableEq

/-- Python truthiness of the `in_list` variable. -/
def listActive : ListKind → Bool
  | ListKind.nolist => false
  | _ => true

/-- Scanner state threaded through the line walk: `in_code_block` and
`in_list`. -/
structure ScanState where
  inCode : Bool
  inList : ListKind
deriving DecidableEq

/-- Initial scanner state (`in_code_block = False`, `in_list = False`). -/
def initState : ScanState := ⟨false, ListKind.nolist⟩

/-! ### Inline formatting (`apply_inline_formatting`)

Each regex substitution pass `re.sub(pat, rep, text)` is modelled by a
left-to-right scanner: at each position it tries to match the pattern
anchored there; on a match it emits the replacement and resumes after the
matched span, otherwise it copies one character.  None of the seven
patterns can match the empty string, so every match consumes at least one
character.  A matcher returns `(replacement, n)` where the match consumed
`n + 1` characters. -/

/-- One substitution pass of `re.sub`: fuel-indexed left-to-right scan
(structural recursion so that the kernel can evaluate it). -/
def scanSubF (f : Line → Option (Line × Nat)) : Nat → Line → Line
  | 0, l => l
  | _ + 1, [] => []
  | fuel + 1, c :: cs =>
    match f (c :: cs) with
    | some (rep, n) => rep ++ scanSubF f fuel (cs.drop n)
    | none => c :: scanSubF f fuel cs

/-- One substitution pass of `re.sub` over a whole line (the line's length
is always enough fuel since each step consumes at least one character). -/
def scanSub (f : Line → Option (Line × Nat)) (l : Line) : Line :=
  scanSubF f l.length l

/-- Replacement text for the image pass. -/
def imgRep (alt url : Line) : Line :=
  "<img src=\"".data ++ url ++ "\" alt=\"".data ++ alt ++ "\">".data

/-- Replacement text for the link pass. -/
def linkRep (txt url : Line) : Line :=
  "<a href=\"".data ++ url ++ "\">".data ++ txt ++ "</a>".data

/-- Matcher for the image pattern `!\[([^\]]*)\]\(([^\)]+)\)`:
`alt` is a possibly-empty run of non-`]` characters, `url` a non-empty run
of non-`)` characters. -/
def matchImg : Line → Option (Line × Nat)
  | '!' :: '[' :: rest =>
    let alt := rest.takeWhile (fun c => c != ']')
    match rest.dropWhile (fun c => c != ']') with
    | ']' :: '(' :: r2 =>
      let url := r2.takeWhile (fun c => c != ')')
      if url.isEmpty then none
      else
        match r2.dropWhile (fun c => c != ')') with
        | ')' :: _ => some (imgRep alt url, alt.length + url.length + 4)
        | _ => none
    | _ => none
  | _ => none

/-- Matcher for the link pattern `\[([^\]]+)\]\(([^\)]+)\)`:
`text` is a non-empty run of non-`]` characters, `url` a non-empty run of
non-`)` characters. -/
def matchLink : Line → Option (Line × Nat)
  | '[' :: rest =>
    let txt := rest.takeWhile (fun c => c != ']')
    if txt.isEmpty then none
    else
      match rest.dropWhile (fun c => c != ']') with
      | ']' :: '(' :: r2 =>
        let url := r2.takeWhile (fun c => c != ')')
        if url.isEmpty then none
        else
          match r2.dropWhile (fun c => c != ')') with
          | ')' :: _ => some (linkRep txt url, txt.length + url.length + 3)
          | _ => none
      | _ => none
  | _ => none

/-- Find the non-greedy content of `(.+?)` followed by the closing
delimiter `d`: the shortest non-empty newline-free prefix after which `d`
occurs.  Mirrors the backtracking order of the regex engine (try one
content character, then extend by one on failure). -/
def findClose (d : Line) : Line → Option Line
  | [] => none
  | c :: cs =>
    if c = '\n' then none
    else if d.isPrefixOf cs then some [c]
    else
      match findClose d cs with
      | some content => some (c :: content)
      | none => none

/-- Matcher for `\*\*(.+?)\*\*`. -/
def matchBoldStar (l : Line) : Option (Line × Nat) :=
  if "**".data.isPrefixOf l then
    match findClose "**".data (l.drop 2) with
    | some content =>
      some ("<strong>".data ++ content ++ "</strong>".data, content.length + 3)
    | none => none
  else none

/-- Matcher for `__(.+?)__`. -/
def matchBoldUnd (l : Line) : Option (Line × Nat) :=
  if "__".data.isPrefixOf l then
    match findClose "__".data (l.drop 2) with
    | some content =>
      some ("<strong>".data ++ content ++ "</strong>".data, content.length + 3)
    | none => none
  else none

/-- Matcher for `\*(.+?)\*`. -/
def matchEmStar (l : Line) : Option (Line × Nat) :=
  if "*".data.isPrefixOf l then
    match findClose "*".data (l.drop 1) with
    | some content =>
      some ("<em>".data ++ content ++ "</em>".data, content.length + 1)
    | none => none
  else none

/-- Matcher for `_(.+?)_`. -/
def matchEmUnd (l : Line) : Option (Line × Nat) :=
  if "_".data.isPrefixOf l then
    match findClose "_".data (l.drop 1) with
    | some content =>
      some ("<em>".data ++ content ++ "</em>".data, content.length + 1)
    | none => none
  else none

/-- Matcher for the inline-code pattern (one backtick, a non-empty run of
non-backtick characters, one backtick). -/
def matchCodeTick : Line → Option (Line × Nat)
  | c :: rest =>
    if c = btChar then
      let content := rest.takeWhile (fun x => x != btChar)
      if content.isEmpty then none
      else
        match rest.dropWhile (fun x => x != btChar) with
        | _ :: _ => some ("<code>".data ++ content ++ "</code>".data, content.length + 1)
        | [] => none
    else none
  | [] => none

/-- The five sequential substitution passes of `apply_inline_formatting`,
in source order: images, links, `**`-bold, `__`-bold, `*`-italic,
`_`-italic, inline code. -/
def applyInlineList (l : Line) : Line :=
  scanSub matchCodeTick
    (scanSub matchEmUnd
      (scanSub matchEmStar
        (scanSub matchBoldUnd
          (scanSub matchBoldStar
            (scanSub matchLink
              (scanSub matchImg l))))))

/-- `apply_inline_formatting` at the string level. -/
def apply_inline_formatting (s : String) : String :=
  String.mk (applyInlineList s.data)

/-! ### Block scanner (`convert_md_to_html`) -/

/-- Fence test (source line 30): the stripped line starts with three
backticks. -/
def isFence (l : Line) : Bool :=
  "```".data.isPrefixOf (pyStrip l)

/-- Language tag of a fence line (source line 33): `line.strip()[3:].strip()`. -/
def fenceLang (l : Line) : Line :=
  pyStrip ((pyStrip l).drop 3)

/-- Single-character `str.replace`: substitute every occurrence of `c`
by `r`. -/
def replaceChar (c : Char) (r : Line) : Line → Line
  | [] => []
  | x :: xs => (if x = c then r else [x]) ++ replaceChar c r xs

/-- Code-block content escaping (source line 42):
`line.replace('<', '&lt;').replace('>', '&gt;')`. -/
def escapeAngles (l : Line) : Line :=
  replaceChar '>' "&gt;".data (replaceChar '<' "&lt;".data l)

/-- Length of the leading run of `#` characters. -/
def headingLevel (l : Line) : Nat :=
  (l.takeWhile (fun c => c == '#')).length

/-- Heading test (source lines 47-51): the line starts with at least one
`#`, the run has length at most 6, and the character immediately after the
run is a space. -/
def isHeadingMatch (l : Line) : Bool :=
  let n := headingLevel l
  0 < n && n ≤ 6 && ((l.drop n).head? == some ' ')

/-- Fragment emitted for a heading line (source lines 52-54). -/
def headingFrag (l : Line) : Line :=
  let n := headingLevel l
  "<h".data ++ (Nat.repr n).data ++ ">".data
    ++ applyInlineList (pyStrip (l.drop (n + 1)))
    ++ "</h".data ++ (Nat.repr n).data ++ ">".data

/-- Unordered-list-item test (source line 59):
`line.strip().startswith(('- ', '* ', '+ '))`. -/
def isUnordered (l : Line) : Bool :=
  "- ".data.isPrefixOf (pyStrip l) || "* ".data.isPrefixOf (pyStrip l)
    || "+ ".data.isPrefixOf (pyStrip l)

/-- Content of an unordered item (source line 63): `line.strip()[2:].strip()`. -/
def ulContent (l : Line) : Line :=
  pyStrip ((pyStrip l).drop 2)

/-- The digit half of the ordered-list tests (source lines 70 and 81):
the stripped line is non-empty and its first character is a decimal
digit.  Python `str.isdigit` is modelled on ASCII digits only. -/
def orderedPrefixTest (l : Line) : Bool :=
  match pyStrip l with
  | [] => false
  | c :: _ => c.isDigit

/-- Python substring containment `pat in s`. -/
def containsSeq (pat : Line) : Line → Bool
  | [] => pat.isEmpty
  | c :: cs => pat.isPrefixOf (c :: cs) || containsSeq pat cs

/-- Ordered-list-item test (source line 70): non-empty stripped line,
digit first character, and a literal `". "` within the first four
characters of the stripped line. -/
def isOrderedItem (l : Line) : Bool :=
  orderedPrefixTest l && containsSeq ". ".data ((pyStrip l).take 4)

/-- The suffix after the first occurrence of `pat` (Python
`s.split(pat, 1)[1]`; `none` when `pat` does not occur). -/
def afterFirst (pat : Line) : Line → Option Line
  | [] => none
  | c :: cs =>
    if pat.isPrefixOf (c :: cs) then some ((c :: cs).drop pat.length)
    else afterFirst pat cs

/-- Content of an ordered item (source line 74):
`line.strip().split('. ', 1)[1]`.  The scanner only evaluates it under the
guard of `isOrderedItem`, which guarantees the occurrence, so the `none`
default is unreachable there. -/
def olContent (l : Line) : Line :=
  (afterFirst ". ".data (pyStrip l)).getD []

/-- List-item fragment (source lines 65 and 76): two-space indent. -/
def liFrag (content : Line) : Line :=
  "  <li>".data ++ content ++ "</li>".data

/-- Paragraph fragment (source lines 96-97): the full untrimmed line,
inline-formatted. -/
def paraFrag (l : Line) : Line :=
  "<p>".data ++ applyInlineList l ++ "</p>".data

/-- Closing tag matching the stored list kind (source lines 82-85 and
103-106): `</ol>` for `'ol'`, otherwise `</ul>`. -/
def closeTag : ListKind → Line
  | ListKind.ol => "</ol>".data
  | _ => "</ul>".data

/-- The list-termination condition of source line 81: inside a list, the
stripped line does not start with an unordered marker, and does not start
with a digit. -/
def doCloseB (st : ScanState) (l : Line) : Bool :=
  listActive st.inList && !(isUnordered l) && !(orderedPrefixTest l)

/-- Fragments emitted by the list-termination block (source lines 80-86). -/
def listCloseFrags (st : ScanState) (l : Line) : List Line :=
  if doCloseB st l then [closeTag st.inList] else []

/-- State after the list-termination block. -/
def listCloseState (st : ScanState) (l : Line) : ScanState :=
  if doCloseB st l then { st with inList := ListKind.nolist } else st

/-- Blank-line / paragraph fragments (source lines 89-97), evaluated on
the same line after possible list termination. -/
def tailFrags (l : Line) : List Line :=
  if (pyStrip l).isEmpty then ["<br>".data] else [paraFrag l]

/-- One iteration of the scanner's `while` loop (source lines 26-99):
classify the current line, emit its fragments and update the state.
Every branch of the loop advances to the next line. -/
def stepLine (st : ScanState) (line : Line) : ScanState × List Line :=
  if isFence line then
    if !st.inCode then
      ({ st with inCode := true },
        ["<pre><code class=\"".data ++ fenceLang line ++ "\">".data])
    else
      ({ st with inCode := false }, ["</code></pre>".data])
  else if st.inCode then
    (st, [escapeAngles line])
  else if isHeadingMatch line then
    (st, [headingFrag line])
  else if isUnordered line then
    if !(listActive st.inList) then
      ({ st with inList := ListKind.ul },
        ["<ul>".data, liFrag (ulContent line)])
    else
      (st, [liFrag (ulContent line)])
  else if isOrderedItem line then
    if !(listActive st.inList) then
      ({ st with inList := ListKind.ol },
        ["<ol>".data, liFrag (olContent line)])
    else
      (st, [liFrag (olContent line)])
  else
    (listCloseState st line, listCloseFrags st line ++ tailFrags line)

/-- Process a list of lines, returning the emitted fragments and the final
scanner state. -/
def processLines (st : ScanState) : List Line → List Line × ScanState
  | [] => ([], st)
  | l :: ls =>
    let p := stepLine st l
    let q := processLines p.1 ls
    (p.2 ++ q.1, q.2)

/-- Python `md_content.split('\n')`. -/
def splitLines : List Char → List Line
  | [] => [[]]
  | c :: cs =>
    if c = '\n' then [] :: splitLines cs
    else
      match splitLines cs with
      | l :: ls => (c :: l) :: ls
      | [] => [[c]]

/-- End-of-document fragments (source lines 101-106): force-close an open
list; an open code block is left open. -/
def endFrags : ListKind → List Line
  | ListKind.nolist => []
  | ListKind.ol => ["</ol>".data]
  | ListKind.ul => ["</ul>".data]

/-- The whole line walk plus the end-of-document list close (source lines
19-106), mirroring the Python `if in_list:` block literally. -/
def convertLines (lines : List Line) : List Line :=
  let p := processLines initState lines
  match p.2.inList with
  | ListKind.nolist => p.1
  | ListKind.ol => p.1 ++ ["</ol>".data]
  | ListKind.ul => p.1 ++ ["</ul>".data]

/-- `convert_md_to_html`: split on newlines, walk the lines, join the
emitted fragments with newlines. -/
def convert_md_to_html (md : String) : String :=
  String.mk (List.intercalate "\n".data (convertLines (splitLines md.data)))

/-- The scanner's `while` loop modelled literally with its integer index
`i` and a step-count budget: each iteration handles line `i` and
increments `i`; the result is `none` when the budget runs out before the
index reaches the end of the line list. -/
def loopFuel : Nat → List Line → Nat → ScanState → List Line →
    Option (List Line × ScanState)
  | 0, lines, i, st, out =>
    if i < lines.length then none else some (out, st)
  | fuel + 1, lines, i, st, out =>
    if h : i < lines.length then
      let p := stepLine st (lines.get ⟨i, h⟩)
      loopFuel fuel lines (i + 1) p.1 (out ++ p.2)
    else some (out, st)

/-! ### Helper lemmas -/

/-- A cons list is not a prefix of a cons list with a different head. -/
theorem isPrefixOf_cons_neq (a b : Char) (as bs : Line) (h : (a == b) = false) :
    List.isPrefixOf (a :: as) (b :: bs) = false := by
  simp [List.isPrefixOf, h]

/-- Dropping whitespace from a list ending in a non-whitespace character
leaves that character, which the final reverse brings to the front. -/
theorem dropWhile_append_singleton_reverse (c : Char) (h : isPyWs c = false) :
    ∀ l : Line, ∃ t, ((l ++ [c]).dropWhile isPyWs).reverse = c :: t := by
  intro l
  induction l with
  | nil => exact ⟨[], by simp [List.dropWhile_cons, h]⟩
  | cons a l2 ih =>
    by_cases ha : isPyWs a = true
    · obtain ⟨t, ht⟩ := ih
      exact ⟨t, by simp [List.dropWhile_cons, ha, ht]⟩
    · refine ⟨l2.reverse ++ [a], ?_⟩
      rw [List.cons_append, List.dropWhile_cons]
      simp [Bool.eq_false_iff.mpr ha]

/-- Stripping a line that starts with a non-whitespace character keeps
that character at the front. -/
theorem pyStrip_cons_not_ws (c : Char) (r : Line) (h : isPyWs c = false) :
    ∃ t, pyStrip (c :: r) = c :: t := by
  unfold pyStrip pyStripLeft pyStripRight
  rw [List.dropWhile_cons, h]
  simp only [Bool.false_eq_true, if_false, List.reverse_cons]
  exact dropWhile_append_singleton_reverse c h r.reverse

/-- A line whose first character is `#` fails the fence, unordered-item
and ordered-item tests, and is not blank. -/
theorem hash_line_classification (t : Line) :
    isFence ('#' :: t) = false ∧ isUnordered ('#' :: t) = false ∧
    orderedPrefixTest ('#' :: t) = false ∧ isOrderedItem ('#' :: t) = false ∧
    (pyStrip ('#' :: t)).isEmpty = false := by
  obtain ⟨t2, hstrip⟩ := pyStrip_cons_not_ws '#' t (by decide)
  refine ⟨?_, ?_, ?_, ?_, ?_⟩
  · rw [isFence, hstrip]
    exact isPrefixOf_cons_neq _ _ _ _ (by decide)
  · rw [isUnordered, hstrip]
    rw [isPrefixOf_cons_neq _ _ _ _ (by decide), isPrefixOf_cons_neq _ _ _ _ (by decide),
      isPrefixOf_cons_neq _ _ _ _ (by decide)]
    rfl
  · rw [orderedPrefixTest, hstrip]
    rfl
  · rw [isOrderedItem, orderedPrefixTest, hstrip]
    simp
  · rw [hstrip]
    rfl

/-- A matched heading line starts with `#`. -/
theorem headingMatch_cons (l : Line) (h : isHeadingMatch l = true) :
    ∃ t, l = '#' :: t := by
  cases l with
  | nil => simp [isHeadingMatch, headingLevel, List.takeWhile] at h
  | cons c cs =>
    by_cases hc : (c == '#') = true
    · exact ⟨cs, by rw [(by simpa using hc : c = '#')]⟩
    · exfalso
      simp only [isHeadingMatch, headingLevel, List.takeWhile_cons, hc] at h
      simp at h

/-! ### C4, C5, C10, C2: fences, escaping asymmetry, pass order, end close -/

/-- C4: a line whose trimmed form starts with three backticks always
toggles the code-block state — entering emits
`<pre><code class="LANG">` with `LANG` the trimmed text after the
backticks, exiting emits `</code></pre>` — and a non-fence line inside a
code block is emitted verbatim with only `<`/`>` escaped; the three-line
document of a fence, `<b>`, and a fence yields exactly the three expected
fragments. -/
theorem fence_toggle_and_code_escape :
    (∀ (st : ScanState) (line : Line), isFence line = true → st.inCode = false →
      stepLine st line = ({ st with inCode := true },
        ["<pre><code class=\"".data ++ pyStrip (List.drop 3 (pyStrip line)) ++ "\">".data]))
    ∧ (∀ (st : ScanState) (line : Line), isFence line = true → st.inCode = true →
      stepLine st line = ({ st with inCode := false }, ["</code></pre>".data]))
    ∧ (∀ (st : ScanState) (line : Line), isFence line = false → st.inCode = true →
      stepLine st line = (st, [replaceChar '>' "&gt;".data (replaceChar '<' "&lt;".data line)]))
    ∧ convert_md_to_html "```\n<b>\n```" = "<pre><code class=\"\">\n&lt;b&gt;\n</code></pre>" := by
  refine ⟨?_, ?_, ?_, by decide⟩
  · intro st line hf hc
    simp [stepLine, hf, hc, fenceLang]
  · intro st line hf hc
    simp [stepLine, hf, hc]
  · intro st line hf hc
    simp [stepLine, hf, hc, escapeAngles]

/-- Witness for C4: the fence-toggle and escape clauses evaluated at
concrete inputs. -/
theorem fence_toggle_witness :
    stepLine initState "```py".data = (⟨true, ListKind.nolist⟩, ["<pre><code class=\"py\">".data])
    ∧ stepLine ⟨true, ListKind.nolist⟩ "```".data = (⟨false, ListKind.nolist⟩, ["</code></pre>".data])
    ∧ stepLine ⟨true, ListKind.nolist⟩ "<b>".data = (⟨true, ListKind.nolist⟩, ["&lt;b&gt;".data]) := by
  refine ⟨?_, ?_, ?_⟩
  · exact (fence_toggle_and_code_escape.1 initState "```py".data (by decide) (by decide)).trans
      (by decide)
  · exact (fence_toggle_and_code_escape.2.1 ⟨true, ListKind.nolist⟩ "```".data (by decide)
      (by decide)).trans (by decide)
  · exact (fence_toggle_and_code_escape.2.2.1 ⟨true, ListKind.nolist⟩ "<b>".data (by decide)
      (by decide)).trans (by decide)

/-- C5: escaping is asymmetric — `<script>` as code-block content is
emitted as `&lt;script&gt;`, while the same text as a paragraph line is
emitted inside `<p>...</p>` unescaped; heading and list text likewise
pass raw angle brackets through. -/
theorem escaping_asymmetry_script :
    convert_md_to_html "```\n<script>\n```" = "<pre><code class=\"\">\n&lt;script&gt;\n</code></pre>"
    ∧ convert_md_to_html "<script>" = "<p><script></p>"
    ∧ convert_md_to_html "# a<b>c" = "<h1>a<b>c</h1>"
    ∧ convert_md_to_html "- <i>" = "<ul>\n  <li><i></li>\n</ul>" := by
  refine ⟨by decide, by decide, by decide, by decide⟩

/-- C10: the inline-code pass runs last, so backtick spans do not protect
their content — bold markers inside a backtick span are rewritten first,
and the input of `**x**` between backticks yields
`<code><strong>x</strong></code>`. -/
theorem inline_code_pass_last_no_protection :
    apply_inline_formatting "`**x**`" = "<code><strong>x</strong></code>" := by decide

/-! ### C6: link pass versus image pass character classes -/

/-- Splitting a take/dropWhile scan at the first excluded character. -/
theorem takeWhile_dropWhile_split (x : Char) (a r : Line) (h : x ∉ a) :
    (a ++ x :: r).takeWhile (fun c => c != x) = a ∧
    (a ++ x :: r).dropWhile (fun c => c != x) = x :: r := by
  induction a with
  | nil => exact ⟨by simp [List.takeWhile_cons], by simp [List.dropWhile_cons]⟩
  | cons c cs ih =>
    have hc : (c != x) = true := by
      have hne : c ≠ x := fun e => h (by simp [e])
      simpa using hne
    obtain ⟨t1, t2⟩ := ih (fun m => h (List.mem_cons_of_mem _ m))
    constructor
    · rw [List.cons_append, List.takeWhile_cons, hc]
      simp [t1]
    · rw [List.cons_append, List.dropWhile_cons, hc]
      simp [t2]

/-- C6 (amended): the link pass accepts the same character classes as the
image pass — text admits any characters except `]` and url any characters
except `)` — but link text must be non-empty whereas image alt may be
empty; consequently every non-empty string accepted as an image alt is
accepted as link text, while the empty string is accepted only as alt. -/
theorem link_text_nonempty_image_alt_may_be_empty (a u : Line)
    (ha : ']' ∉ a) (hu : ')' ∉ u) (hne : u ≠ []) :
    matchImg ('!' :: '[' :: (a ++ ']' :: '(' :: (u ++ [')'])))
      = some (imgRep a u, a.length + u.length + 4)
    ∧ matchLink ('[' :: (a ++ ']' :: '(' :: (u ++ [')'])))
      = (if a = [] then none else some (linkRep a u, a.length + u.length + 3)) := by
  obtain ⟨hta, hda⟩ := takeWhile_dropWhile_split ']' a ('(' :: (u ++ [')'])) ha
  have hu2 : (u ++ [')']) = u ++ ')' :: [] := rfl
  obtain ⟨htu, hdu⟩ := takeWhile_dropWhile_split ')' u [] hu
  have huE : u.isEmpty = false := by
    cases u with
    | nil => exact absurd rfl hne
    | cons c cs => rfl
  constructor
  · simp only [matchImg, hta, hda, htu, hdu, huE]
    simp
  · cases a with
    | nil =>
      simp only [List.nil_append] at hta hda ⊢
      simp [matchLink, List.takeWhile_cons]
    | cons c cs =>
      have hE : (c :: cs).isEmpty = false := rfl
      simp only [matchLink, hta, hda, htu, hdu, huE, hE]
      simp

/-- Counterexample for C6 as stated: the empty string is accepted as an
image alt but rejected as link text — `![](u)` is rewritten to an `<img>`
tag while `[](u)` is left entirely unchanged. -/
theorem empty_alt_accepted_empty_link_text_rejected :
    matchImg "![](u)".data = some (imgRep [] "u".data, 5)
    ∧ matchLink "[](u)".data = none
    ∧ apply_inline_formatting "![](u)" = "<img src=\"u\" alt=\"\">"
    ∧ apply_inline_formatting "[](u)" = "[](u)" := by
  refine ⟨by decide, by decide, by decide, by decide⟩

/-- Witness for C6: the amended statement applied at alt/text `x` and
url `u`. -/
theorem link_image_classes_witness :
    matchImg ('!' :: '[' :: ("x".data ++ ']' :: '(' :: ("u".data ++ [')'])))
      = some (imgRep "x".data "u".data, 6)
    ∧ matchLink ('[' :: ("x".data ++ ']' :: '(' :: ("u".data ++ [')'])))
      = some (linkRep "x".data "u".data, 5) := by
  have h := link_text_nonempty_image_alt_may_be_empty "x".data "u".data
    (by decide) (by decide) (by decide)
  exact ⟨h.1.trans (by decide), h.2.trans (by decide)⟩

/-! ### C7: plain lines are returned unchanged -/

/-- Some position of the line matches the given pattern matcher. -/
def hasMatch (f : Line → Option (Line × Nat)) : Line → Bool
  | [] => false
  | c :: cs => (f (c :: cs)).isSome || hasMatch f cs

/-- A substitution pass leaves a line without any match unchanged,
whatever the fuel. -/
theorem scanSubF_id_of_no_match (f : Line → Option (Line × Nat)) :
    ∀ (l : Line) (fuel : Nat), hasMatch f l = false → scanSubF f fuel l = l := by
  intro l
  induction l with
  | nil => intro fuel _; cases fuel <;> rfl
  | cons c cs ih =>
    intro fuel h
    have h1 : f (c :: cs) = none := by
      cases hf : f (c :: cs) with
      | none => rfl
      | some v => rw [hasMatch, hf] at h; simp at h
    have h2 : hasMatch f cs = false := by
      rw [hasMatch, h1] at h
      simpa using h
    cases fuel with
    | zero => rfl
    | succ n => simp [scanSubF, h1, ih n h2]

/-- A substitution pass over a line without any match is the identity. -/
theorem scanSub_id_of_no_match (f : Line → Option (Line × Nat)) (l : Line)
    (h : hasMatch f l = false) : scanSub f l = l :=
  scanSubF_id_of_no_match f l l.length h

/-- C7: for every non-empty line in which none of the inline patterns
matches at any position (no image, no link, no `**`/`__` pair, no
`*`/`_` pair, no backtick pair with non-empty content),
`apply_inline_formatting` returns the line unchanged. -/
theorem plain_text_unchanged (s : String) (_hne : s ≠ "")
    (h1 : hasMatch matchImg s.data = false)
    (h2 : hasMatch matchLink s.data = false)
    (h3 : hasMatch matchBoldStar s.data = false)
    (h4 : hasMatch matchBoldUnd s.data = false)
    (h5 : hasMatch matchEmStar s.data = false)
    (h6 : hasMatch matchEmUnd s.data = false)
    (h7 : hasMatch matchCodeTick s.data = false) :
    apply_inline_formatting s = s := by
  unfold apply_inline_formatting applyInlineList
  rw [scanSub_id_of_no_match _ _ h1, scanSub_id_of_no_match _ _ h2,
    scanSub_id_of_no_match _ _ h3, scanSub_id_of_no_match _ _ h4,
    scanSub_id_of_no_match _ _ h5, scanSub_id_of_no_match _ _ h6,
    scanSub_id_of_no_match _ _ h7]


/-- Witness for C7 at a concrete plain line. -/
theorem plain_text_unchanged_witness :
    apply_inline_formatting "hello, plain world." = "hello, plain world." :=
  plain_text_unchanged "hello, plain world." (by decide) (by decide) (by decide)
    (by decide) (by decide) (by decide) (by decide) (by decide)

/-! ### C3: heading rule and its fall-through -/

/-- C3: outside a code block, a line starting with a run of `#` of length
N with 1 ≤ N ≤ 6 followed by a space emits `<hN>content</hN>` with the
rest of the line trimmed and inline-formatted; a `#`-starting line that
fails this test (run longer than 6, or no following space) falls through
and is treated as a paragraph (closing an open list first), and the
seven-hash input yields a plain paragraph. -/
theorem heading_rule_and_fallthrough :
    (∀ (st : ScanState) (line : Line), st.inCode = false → isHeadingMatch line = true →
      stepLine st line = (st,
        ["<h".data ++ (Nat.repr (headingLevel line)).data ++ ">".data
          ++ applyInlineList (pyStrip (line.drop (headingLevel line + 1)))
          ++ "</h".data ++ (Nat.repr (headingLevel line)).data ++ ">".data]))
    ∧ (∀ (st : ScanState) (line : Line), st.inCode = false → line.head? = some '#' →
      isHeadingMatch line = false →
      stepLine st line = ({ inCode := false, inList := ListKind.nolist },
        (if listActive st.inList then [closeTag st.inList] else [])
          ++ ["<p>".data ++ applyInlineList line ++ "</p>".data]))
    ∧ convert_md_to_html "####### Over" = "<p>####### Over</p>" := by
  refine ⟨?_, ?_, by decide⟩
  · intro st line hc hh
    obtain ⟨t, rfl⟩ := headingMatch_cons line hh
    obtain ⟨hfence, -, -, -, -⟩ := hash_line_classification t
    simp [stepLine, hfence, hc, hh, headingFrag]
  · intro st line hc hhead hh
    cases line with
    | nil => simp at hhead
    | cons c t =>
      have hct : c = '#' := by simpa using hhead
      subst hct
      obtain ⟨hfence, hul, hpre, hol, hblank⟩ := hash_line_classification t
      cases st with
      | mk inCode inList =>
        simp only at hc
        subst hc
        cases inList <;>
          simp [stepLine, hfence, hh, hul, hol, listCloseState, listCloseFrags, doCloseB,
            hpre, tailFrags, hblank, paraFrag, listActive, closeTag]

/-- Witness for C3: the heading clause at a valid heading and the
fall-through clause at a seven-hash line, both with and without an open
list. -/
theorem heading_rule_witness :
    stepLine initState "# Title".data = (initState, ["<h1>Title</h1>".data])
    ∧ stepLine ⟨false, ListKind.ul⟩ "####### Over".data
      = (⟨false, ListKind.nolist⟩, ["</ul>".data, "<p>####### Over</p>".data]) := by
  constructor
  · exact (heading_rule_and_fallthrough.1 initState "# Title".data (by decide)
      (by decide)).trans (by decide)
  · exact (heading_rule_and_fallthrough.2.1 ⟨false, ListKind.ul⟩ "####### Over".data
      (by decide) (by decide) (by decide)).trans (by decide)

/-! ### C1: list termination -/

/-- C1 (amended): if the scanner is inside a list, the current line is not
consumed by an earlier rule (it is not a fence line, the scanner is not
inside a code block, and the line is not a heading line), and the line
matches neither the unordered-list-item rule nor the ordered-list-item
rule's digit-prefix test, then the scanner emits the closing tag matching
the stored kind, clears the list state, and handles the same line by the
blank-line or paragraph rule without advancing. -/
theorem list_close_same_line_blank_or_paragraph (st : ScanState) (line : Line)
    (hc : st.inCode = false) (hf : isFence line = false)
    (hh : isHeadingMatch line = false) (hu : isUnordered line = false)
    (hp : orderedPrefixTest line = false) (hl : listActive st.inList = true) :
    stepLine st line = ({ st with inList := ListKind.nolist },
      closeTag st.inList ::
        (if (pyStrip line).isEmpty then ["<br>".data]
         else ["<p>".data ++ applyInlineList line ++ "</p>".data])) := by
  have ho : isOrderedItem line = false := by simp [isOrderedItem, hp]
  simp only [stepLine, hf, hc, hh, hu, ho, Bool.false_eq_true, if_false,
    listCloseState, listCloseFrags, doCloseB, hl, hp, tailFrags, paraFrag]
  simp

/-- Counterexample for C1 as stated: with an unordered list open, the
line `# H` matches neither list rule, yet the scanner emits only the
heading fragment — no closing tag — and keeps the list state. -/
theorem list_close_counterexample_heading_line :
    isUnordered "# H".data = false
    ∧ orderedPrefixTest "# H".data = false
    ∧ stepLine ⟨false, ListKind.ul⟩ "# H".data
      = (⟨false, ListKind.ul⟩, ["<h1>H</h1>".data])
    ∧ convert_md_to_html "- a\n# H" = "<ul>\n  <li>a</li>\n<h1>H</h1>\n</ul>" := by
  refine ⟨by decide, by decide, by decide, by decide⟩

/-- Witness for C1: the amended clause at a paragraph line and at a blank
line, inside each list kind. -/
theorem list_close_witness :
    stepLine ⟨false, ListKind.ul⟩ "text".data
      = (⟨false, ListKind.nolist⟩, ["</ul>".data, "<p>text</p>".data])
    ∧ stepLine ⟨false, ListKind.ol⟩ "".data
      = (⟨false, ListKind.nolist⟩, ["</ol>".data, "<br>".data]) := by
  constructor
  · exact (list_close_same_line_blank_or_paragraph ⟨false, ListKind.ul⟩ "text".data
      (by decide) (by decide) (by decide) (by decide) (by decide) (by decide)).trans (by decide)
  · exact (list_close_same_line_blank_or_paragraph ⟨false, ListKind.ol⟩ "".data
      (by decide) (by decide) (by decide) (by decide) (by decide) (by decide)).trans (by decide)

/-! ### C9: a single list at a time, kind never switched -/

/-- C9: the scanner tracks one list at a time and never switches its kind
while a list is open — an ordered-item line seen while an unordered list
is open (and vice versa) emits only the `<li>` fragment, opens no new
list, and leaves the stored kind unchanged, so the eventual closing tag
matches the first-opened kind. -/
theorem single_list_kind_preserved :
    (∀ (st : ScanState) (line : Line), st.inCode = false → isFence line = false →
      isHeadingMatch line = false → isUnordered line = false →
      isOrderedItem line = true → st.inList = ListKind.ul →
      stepLine st line = (st, ["  <li>".data ++ olContent line ++ "</li>".data]))
    ∧ (∀ (st : ScanState) (line : Line), st.inCode = false → isFence line = false →
      isHeadingMatch line = false → isUnordered line = true → st.inList = ListKind.ol →
      stepLine st line = (st, ["  <li>".data ++ ulContent line ++ "</li>".data]))
    ∧ convert_md_to_html "- a\n1. b" = "<ul>\n  <li>a</li>\n  <li>b</li>\n</ul>" := by
  refine ⟨?_, ?_, by decide⟩
  · intro st line hc hf hh hu ho hl
    simp [stepLine, hc, hf, hh, hu, ho, hl, listActive, liFrag]
  · intro st line hc hf hh hu hl
    simp [stepLine, hc, hf, hh, hu, hl, listActive, liFrag]

/-- Witness for C9: an ordered item inside an unordered list and an
unordered item inside an ordered list. -/
theorem single_list_kind_witness :
    stepLine ⟨false, ListKind.ul⟩ "1. b".data
      = (⟨false, ListKind.ul⟩, ["  <li>b</li>".data])
    ∧ stepLine ⟨false, ListKind.ol⟩ "- b".data
      = (⟨false, ListKind.ol⟩, ["  <li>b</li>".data]) := by
  constructor
  · exact (single_list_kind_preserved.1 ⟨false, ListKind.ul⟩ "1. b".data
      (by decide) (by decide) (by decide) (by decide) (by decide) (by decide)).trans (by decide)
  · exact (single_list_kind_preserved.2.1 ⟨false, ListKind.ol⟩ "- b".data
      (by decide) (by decide) (by decide) (by decide) (by decide)).trans (by decide)

/-! ### C2 and C8: end-of-document behaviour, totality and loop progress -/

/-- The converter output is the walk's fragments followed by exactly the
end-of-document fragments determined by the final list state. -/
theorem convert_body_close (md : String) :
    convert_md_to_html md =
      String.mk (List.intercalate "\n".data
        ((processLines initState (splitLines md.data)).1
          ++ endFrags (processLines initState (splitLines md.data)).2.inList)) := by
  unfold convert_md_to_html convertLines endFrags
  cases h : (processLines initState (splitLines md.data)).2.inList <;> simp [h]

/-- C2: after the last line, an open list is force-closed with the tag
matching the stored kind, while an open code block is not force-closed:
whatever is appended after the walk's fragments is `[]`, `["</ul>"]` or
`["</ol>"]`, never a `</code></pre>`; concretely, a document ending inside
a list gains its closing tag and a document with an unterminated fence
ends with its last content line. -/
theorem end_of_document_closes_list_not_code :
    (∀ md : String, convert_md_to_html md =
      String.mk (List.intercalate "\n".data
        ((processLines initState (splitLines md.data)).1
          ++ endFrags (processLines initState (splitLines md.data)).2.inList)))
    ∧ endFrags ListKind.nolist = []
    ∧ endFrags ListKind.ul = ["</ul>".data]
    ∧ endFrags ListKind.ol = ["</ol>".data]
    ∧ convert_md_to_html "- a" = "<ul>\n  <li>a</li>\n</ul>"
    ∧ convert_md_to_html "1. a" = "<ol>\n  <li>a</li>\n</ol>"
    ∧ convert_md_to_html "```python\nx = 1" = "<pre><code class=\"python\">\nx = 1" := by
  exact ⟨convert_body_close, rfl, rfl, rfl, by decide, by decide, by decide⟩

/-- With a step budget at least the number of remaining lines, the
index-based loop terminates and agrees with the structural walk of the
remaining lines. -/
theorem loopFuel_complete (lines : List Line) :
    ∀ (fuel i : Nat) (st : ScanState) (out : List Line), lines.length ≤ i + fuel →
      loopFuel fuel lines i st out =
        some (out ++ (processLines st (lines.drop i)).1,
          (processLines st (lines.drop i)).2) := by
  intro fuel
  induction fuel with
  | zero =>
    intro i st out h
    have hge : lines.length ≤ i := by omega
    have hdrop : lines.drop i = [] := List.drop_eq_nil_of_le hge
    simp [loopFuel, Nat.not_lt.mpr hge, hdrop, processLines]
  | succ fuel ih =>
    intro i st out h
    by_cases hi : i < lines.length
    · have hdrop : lines.drop i = lines.get ⟨i, hi⟩ :: lines.drop (i + 1) :=
        List.drop_eq_getElem_cons hi
      rw [loopFuel, dif_pos hi, ih (i + 1) _ _ (by omega), hdrop]
      simp [processLines]
    · have hdrop : lines.drop i = [] := List.drop_eq_nil_of_le (Nat.le_of_not_lt hi)
      rw [loopFuel, dif_neg hi]
      simp [hdrop, processLines]

/-- C8: the conversion terminates and returns a string for every input —
the index-based `while` loop, given a step budget equal to the number of
lines, always reaches the end of the line list (one line per iteration),
and the converter's result is the loop's output plus the end-of-document
fragments. -/
theorem conversion_total_loop_terminates (md : String) :
    loopFuel (splitLines md.data).length (splitLines md.data) 0 initState []
      = some ((processLines initState (splitLines md.data)).1,
          (processLines initState (splitLines md.data)).2)
    ∧ convert_md_to_html md =
        String.mk (List.intercalate "\n".data
          ((processLines initState (splitLines md.data)).1
            ++ endFrags (processLines initState (splitLines md.data)).2.inList)) := by
  constructor
  · have h := loopFuel_complete (splitLines md.data) (splitLines md.data).length 0 initState []
      (by omega)
    simpa using h
  · exact convert_body_close md

end Md2h
